import Mathlib

/-!
A shallow embedding of the Room & Session Coordination Engine of the
real-time bingo server (src/server.ts), together with proofs about its
operations.

Modelling conventions:
* `Math.random()`-driven draws are an explicit input stream (a `List` of
  pre-drawn values); a loop that keeps redrawing is a recursion over that
  stream, and `none` means the finite stream was exhausted without the
  loop terminating (the JS loop would simply keep drawing).
* `Date.now()` is an explicit `now : Nat` argument.
* A WebSocket handle is reduced to its observable behaviour: whether it
  is closed and whether `send` throws.
* The JS `Map` of rooms is an association list with unique keys;
  `Map.delete` is modelled by filtering the key out.  The JS `Set` of
  room codes is a duplicate-free list; `Set.add` / `Set.delete` are
  modelled by a guarded append / a filter.
-/

namespace Bingo

/-- A generated bingo board: a 5x5 or 3x9 grid (`grid`), or the flat
9-number strip used by the 30-ball variant (`flat`).  Mirrors the
`number[][]` / `number[]` values of generate75BallBoard,
generate90BallBoard and generate30BallBoard (src/server.ts 294-371). -/
inductive BingoBoard where
  | grid : List (List Nat) → BingoBoard
  | flat : List Nat → BingoBoard
deriving DecidableEq

/-- Transport handle of one player: `isClosed` mirrors
`player.socket.isClosed`, and `sendFails` says whether `socket.send`
would throw on this call. -/
structure Transport where
  isClosed : Bool
  sendFails : Bool
deriving DecidableEq

/-- `Player` (src/server.ts 6-12). -/
structure Player where
  id : String
  name : String
  socket : Transport
  isHost : Bool
  board : Option BingoBoard
deriving DecidableEq

/-- One entry of `room.winners` (src/server.ts 193-198). -/
structure Winner where
  playerId : String
  playerName : String
  pattern : String
  timestamp : Nat
deriving DecidableEq

/-- `Room` (src/server.ts 14-25).  `status` ranges over the string
literals "waiting", "playing", "finished" exactly as in the source. -/
structure Room where
  code : String
  hostId : String
  gameType : String
  status : String
  players : List Player
  calledNumbers : List Nat
  currentNumber : Option Nat
  winPattern : String
  winners : List Winner
  createdAt : Nat
deriving DecidableEq

/-- The mutable state of `GameManager` that the claims are about: the
room `Map` (as an association list keyed by room code) and the
`roomCodes` `Set` (src/server.ts 34-36). -/
structure GameManager where
  rooms : List (String × Room)
  roomCodes : List String
deriving DecidableEq

/-- getDefaultPattern (src/server.ts 373-386). -/
def getDefaultPattern (gameType : String) : String :=
  if gameType = "75ball" then "full-house"
  else if gameType = "90ball" then "one-line"
  else if gameType = "30ball" then "full-house"
  else if gameType = "pattern" then "x-pattern"
  else "full-house"

/-- The size of the number space drawn from in callNumber
(src/server.ts 153-162): 75 for '75ball' and 'pattern', 90 for
'90ball', 30 for '30ball', 50 otherwise. -/
def spaceSize (gameType : String) : Nat :=
  if gameType = "75ball" ∨ gameType = "pattern" then 75
  else if gameType = "90ball" then 90
  else if gameType = "30ball" then 30
  else 50

/-- GameManager.generateRoomCode (src/server.ts 38-51): the do-while
loop keeps drawing random 6-character codes until one is not already in
`roomCodes`.  The successive random draws are the input stream `cands`;
`none` means the finite stream was exhausted before a free code was
found.  The `roomCodes.add` side effect is performed by `createRoomM`. -/
def generateRoomCode : List String → List String → Option String
  | [], _ => none
  | c :: cs, used => if c ∈ used then generateRoomCode cs used else some c

/-- The room record built by GameManager.createRoom (src/server.ts
53-72); `host.isHost = true` is set right after, on the same player
object stored in `players`. -/
def mkRoom (host : Player) (gameType code : String) (now : Nat) : Room :=
  { code := code
    hostId := host.id
    gameType := gameType
    status := "waiting"
    players := [{ host with isHost := true }]
    calledNumbers := []
    currentNumber := none
    winPattern := getDefaultPattern gameType
    winners := []
    createdAt := now }

/-- GameManager.createRoom (src/server.ts 53-72) at the manager level:
draws a fresh code via generateRoomCode (which also adds it to
`roomCodes`) and stores the new room in the `Map`. -/
def createRoomM (gm : GameManager) (host : Player) (gameType : String)
    (cands : List String) (now : Nat) : Option (Room × GameManager) :=
  match generateRoomCode cands gm.roomCodes with
  | none => none
  | some code =>
    let room := mkRoom host gameType code now
    some (room,
      { rooms := gm.rooms ++ [(code, room)]
        roomCodes :=
          if code ∈ gm.roomCodes then gm.roomCodes else gm.roomCodes ++ [code] })

/-- GameManager.joinRoom (src/server.ts 74-88), the per-room part after
the `Map` lookup: rejected unless the room is waiting and below the
10-player cap; on success the player is appended to `players`.  Note
there is no check that the player id is not already a member. -/
def joinRoom (room : Room) (player : Player) : Option Room :=
  if room.status = "waiting" ∧ room.players.length < 10 then
    some { room with players := room.players ++ [player] }
  else none

/-- `findIndex` + `splice(index, 1)` of GameManager.leaveRoom
(src/server.ts 94-98): removes the first player with the given id. -/
def removeFirstPlayer : List Player → String → List Player
  | [], _ => []
  | p :: ps, pid => if p.id = pid then ps else p :: removeFirstPlayer ps pid

/-- GameManager.leaveRoom (src/server.ts 90-120), the per-room part:
`none` when the player is not a member (the JS early-returns with no
change).  If the departing player was the host and members remain, the
host becomes the first remaining member (and its isHost flag is set).
A result with empty `players` is deleted from the store by
`leaveRoomM`. -/
def leaveRoom (room : Room) (playerId : String) : Option Room :=
  match room.players.find? (fun p => p.id == playerId) with
  | none => none
  | some _ =>
    match removeFirstPlayer room.players playerId with
    | [] => some { room with players := [] }
    | q :: qs =>
      if playerId = room.hostId then
        some { room with hostId := q.id, players := { q with isHost := true } :: qs }
      else
        some { room with players := q :: qs }

/-- `rooms.delete(code)` (src/server.ts 108): in the JS `Map` keys are
unique, so deleting the key is filtering it out. -/
def eraseKey (rooms : List (String × Room)) (code : String) :
    List (String × Room) :=
  rooms.filter (fun kv => kv.1 != code)

/-- Writing the (in JS, in-place mutated) room back into the `Map`. -/
def setRoom (rooms : List (String × Room)) (code : String) (room : Room) :
    List (String × Room) :=
  rooms.map (fun kv => if kv.1 = code then (code, room) else kv)

/-- `this.rooms.get(code)` (used at the top of every GameManager
operation). -/
def findRoom (gm : GameManager) (code : String) : Option Room :=
  List.lookup code gm.rooms

/-- GameManager.leaveRoom (src/server.ts 90-120) at the manager level:
when the room becomes empty it is deleted from `rooms` and its code is
removed from `roomCodes` (lines 106-110). -/
def leaveRoomM (gm : GameManager) (code playerId : String) : GameManager :=
  match findRoom gm code with
  | none => gm
  | some room =>
    match leaveRoom room playerId with
    | none => gm
    | some room1 =>
      if room1.players.length = 0 then
        { rooms := eraseKey gm.rooms code
          roomCodes := gm.roomCodes.filter (fun c => c != code) }
      else
        { gm with rooms := setRoom gm.rooms code room1 }

/-- `room.players.forEach(player => player.board = generateBoard(...))`
(src/server.ts 131-133).  The random board generator is the oracle
`gen`, indexed by the player's position in the list. -/
def assignBoards (gen : Nat → BingoBoard) : Nat → List Player → List Player
  | _, [] => []
  | i, p :: ps => { p with board := some (gen i) } :: assignBoards gen (i + 1) ps

/-- GameManager.startGame (src/server.ts 122-142), the per-room part:
succeeds exactly when the room status is 'waiting'.  Note the source
takes only the room code: no requester id is received and no host check
is performed. -/
def startGame (room : Room) (gen : Nat → BingoBoard) : Option Room :=
  if room.status = "waiting" then
    some { room with
            status := "playing"
            calledNumbers := []
            winners := []
            players := assignBoards gen 0 room.players }
  else none

/-- GameManager.startGame at the manager level. -/
def startGameM (gm : GameManager) (code : String) (gen : Nat → BingoBoard) :
    Bool × GameManager :=
  match findRoom gm code with
  | none => (false, gm)
  | some room =>
    match startGame room gen with
    | none => (false, gm)
    | some room1 => (true, { gm with rooms := setRoom gm.rooms code room1 })

/-- handleStartGame (src/server.ts 644-655): the requesting player's id
is NOT passed on — `gameManager.startGame(data.roomCode)` is called with
the room code only, for any requester. -/
def handleStartGame (gm : GameManager) (requesterId : String)
    (roomCode : String) (gen : Nat → BingoBoard) : Bool × GameManager :=
  startGameM gm roomCode gen

/-- The do-while rejection loop of GameManager.callNumber
(src/server.ts 153-163): keep taking draws until one is not already in
`called`; `none` means the finite draw stream ran out without the loop
terminating. -/
def drawFresh : List Nat → List Nat → Option Nat
  | [], _ => none
  | d :: ds, called => if d ∈ called then drawFresh ds called else some d

/-- GameManager.callNumber (src/server.ts 144-180), per-room part: only
the host may call, and only while playing; the fresh number is appended
to `calledNumbers` and becomes `currentNumber`. -/
def callNumber (room : Room) (callerId : String) (draws : List Nat) :
    Option Nat × Room :=
  if room.status = "playing" ∧ room.hostId = callerId then
    match drawFresh draws room.calledNumbers with
    | none => (none, room)
    | some n =>
      (some n, { room with
                  calledNumbers := room.calledNumbers ++ [n]
                  currentNumber := some n })
  else (none, room)

/-- getTotalCells (src/server.ts 426-438). -/
def getTotalCells (gameType : String) : Nat :=
  if gameType = "75ball" ∨ gameType = "pattern" then 24
  else if gameType = "90ball" then 15
  else if gameType = "30ball" then 9
  else 24

/-- flattenBoard (src/server.ts 414-424).  For '30ball' the JS filters
the flat strip directly; a grid board under '30ball' would be filtered
by `row > 0`, which is false for every array, yielding []. -/
def flattenBoard (board : BingoBoard) (gameType : String) : List Nat :=
  if gameType = "30ball" then
    match board with
    | .flat ns => ns.filter (fun n => decide (n > 0))
    | .grid _ => []
  else
    match board with
    | .grid rows => rows.flatten.filter (fun n => decide (n > 0))
    | .flat ns => ns.filter (fun n => decide (n > 0))

/-- calculateMarkedCount (src/server.ts 406-412): the count of called
numbers that appear on the player's board. -/
def calculateMarkedCount (player : Player) (room : Room) : Nat :=
  match player.board with
  | none => 0
  | some b =>
    (room.calledNumbers.filter
      (fun num => (flattenBoard b room.gameType).contains num)).length

/-- verifyWin (src/server.ts 388-404).  The JS thresholds are the
floating-point products `totalCells * 0.8` etc.; they are rendered here
as the exact rational comparisons `5*marked >= 4*total` etc.  (Binary
rounding of the JS doubles can shift a threshold by one marked cell in
edge cases; no property proved below depends on the exact cut-off.) -/
def verifyWin (player : Player) (room : Room) (claimedPattern : String) : Bool :=
  let markedCount := calculateMarkedCount player room
  let totalCells := getTotalCells room.gameType
  if claimedPattern = "full-house" then decide (5 * markedCount ≥ 4 * totalCells)
  else if claimedPattern = "one-line" then decide (5 * markedCount ≥ totalCells)
  else if claimedPattern = "x-pattern" then decide (10 * markedCount ≥ 3 * totalCells)
  else decide (2 * markedCount ≥ totalCells)

/-- GameManager.claimWin (src/server.ts 182-213), per-room part: fails
(returning false, with the room unchanged) when the room is not
playing, the claimant is not a member, or verifyWin rejects; on success
appends one entry to `winners`. -/
def claimWin (room : Room) (playerId pattern : String) (now : Nat) :
    Bool × Room :=
  if room.status = "playing" then
    match room.players.find? (fun p => p.id == playerId) with
    | none => (false, room)
    | some player =>
      if verifyWin player room pattern then
        (true, { room with winners := room.winners ++
                  [{ playerId := playerId
                     playerName := player.name
                     pattern := pattern
                     timestamp := now }] })
      else (false, room)
  else (false, room)

/-- What happened to one recipient of a broadcast. -/
inductive DeliveryOutcome where
  | skipped
  | delivered
  | failedCaught
deriving DecidableEq

/-- GameManager.broadcastToRoom (src/server.ts 260-270): `forEach` over
the room's players; a closed socket is skipped (`skipped`), a throwing
`send` is caught and logged (`failedCaught`) and the loop continues to
the remaining players. -/
def broadcastToRoom : List Player → List (String × DeliveryOutcome)
  | [] => []
  | p :: ps =>
    if p.socket.isClosed then (p.id, .skipped) :: broadcastToRoom ps
    else if p.socket.sendFails then (p.id, .failedCaught) :: broadcastToRoom ps
    else (p.id, .delivered) :: broadcastToRoom ps

/-- One inbound session event targeting a single room (the per-room
projection of the WebSocket message handlers of src/server.ts). -/
inductive RoomEvent where
  | join (p : Player)
  | leave (playerId : String)
  | start (gen : Nat → BingoBoard)
  | call (callerId : String) (draws : List Nat)
  | claim (playerId pattern : String) (now : Nat)
  | chat (playerId text : String)

/-- How one stored room evolves under one event: a failed operation
leaves the room unchanged (the JS returns null/false without mutating);
a leave that empties the room deletes it from the store (`none`).
sendChatMessage (src/server.ts 215-229) only broadcasts and never
mutates the room. -/
def roomStep (room : Room) : RoomEvent → Option Room
  | .join p => some ((joinRoom room p).getD room)
  | .leave pid =>
    match leaveRoom room pid with
    | none => some room
    | some room1 => if room1.players.length = 0 then none else some room1
  | .start gen => some ((startGame room gen).getD room)
  | .call cid draws => some (callNumber room cid draws).2
  | .claim pid pat now => some (claimWin room pid pat now).2
  | .chat _ _ => some room

/-- The rooms that can actually exist in the store: created by
createRoom and evolved by the session operations. -/
inductive Reachable : Room → Prop where
  | created (host : Player) (gameType code : String) (now : Nat) :
      Reachable (mkRoom host gameType code now)
  | step (r : Room) (e : RoomEvent) (r1 : Room) :
      Reachable r → roomStep r e = some r1 → Reachable r1

/-! Concrete data used by counterexamples and witnesses. -/

/-- An open, non-throwing transport. -/
def okSocket : Transport := { isClosed := false, sendFails := false }

def hostW : Player :=
  { id := "h", name := "Alice", socket := okSocket, isHost := false, board := none }

def dupW : Player :=
  { id := "p", name := "Bob", socket := okSocket, isHost := false, board := none }

/-- A freshly created 75-ball room hosted by `hostW`. -/
def roomW0 : Room := mkRoom hostW "75ball" "ROOM01" 0

/-- `roomW0` after `dupW` joins once. -/
def roomW1 : Room := { roomW0 with players := roomW0.players ++ [dupW] }

/-- `roomW1` after `dupW` joins a second time (the join is accepted:
there is no duplicate-id check). -/
def roomW2 : Room := { roomW1 with players := roomW1.players ++ [dupW] }

/-- A trivial board oracle for witnesses. -/
def genW : Nat → BingoBoard := fun _ => BingoBoard.flat []

/-- A manager holding one waiting room, used for the startGame claims. -/
def gmC1 : GameManager :=
  { rooms := [("ROOM01", roomW0)], roomCodes := ["ROOM01"] }

/-- A playing 75-ball room whose number space is exhausted. -/
def roomEx : Room :=
  { code := "EXH"
    hostId := "h"
    gameType := "75ball"
    status := "playing"
    players := [{ hostW with isHost := true }]
    calledNumbers := List.range' 1 75
    currentNumber := some 75
    winPattern := "full-house"
    winners := []
    createdAt := 0 }

/-- A single-member room and its manager, for the room-destruction
claim. -/
def soloRoom : Room := mkRoom hostW "90ball" "AAAAAA" 3

def gmSolo : GameManager :=
  { rooms := [("AAAAAA", soloRoom)], roomCodes := ["AAAAAA"] }

/-- A playing room with one called number, for the callNumber witness. -/
def roomCall : Room :=
  { roomEx with code := "CALL", calledNumbers := [3], currentNumber := some 3 }

/-- `roomCall` after a successful call drawing 7. -/
def roomCall7 : Room :=
  { roomCall with calledNumbers := [3, 7], currentNumber := some 7 }

/-- A member whose socket send throws. -/
def pFail : Player :=
  { id := "f", name := "Fay", socket := { isClosed := false, sendFails := true },
    isHost := false, board := none }

/-- A room in which the first member's transport is broken. -/
def roomB : Room := { roomW0 with players := [pFail, dupW] }

/-- Two player/room pairs that agree on board, calledNumbers and
gameType but differ everywhere else, for the determinism claim. -/
def pDetA : Player := { hostW with board := some (BingoBoard.flat [1, 2, 3]) }

def pDetB : Player :=
  { id := "z", name := "Zoe", socket := { isClosed := true, sendFails := true },
    isHost := true, board := some (BingoBoard.flat [1, 2, 3]) }

def rDetA : Room := { roomEx with calledNumbers := [1, 2], currentNumber := some 2 }

def rDetB : Room :=
  { code := "OTHER"
    hostId := "z"
    gameType := "75ball"
    status := "waiting"
    players := [pDetB]
    calledNumbers := [1, 2]
    currentNumber := none
    winPattern := "one-line"
    winners := [{ playerId := "z", playerName := "Zoe", pattern := "one-line", timestamp := 9 }]
    createdAt := 42 }

/-! ## Basic facts about the operations -/

/-- A successful join happens exactly in a waiting, non-full room, and
only appends the new player. -/
theorem joinRoom_some {room : Room} {p : Player} {room1 : Room}
    (h : joinRoom room p = some room1) :
    room.status = "waiting" ∧ room.players.length < 10 ∧
      room1 = { room with players := room.players ++ [p] } := by
  unfold joinRoom at h
  split at h
  · rename_i hc
    exact ⟨hc.1, hc.2, (Option.some.inj h).symm⟩
  · cases h

/-- A successful start happens exactly from 'waiting' and produces the
playing room with cleared calledNumbers/winners and fresh boards. -/
theorem startGame_some {room : Room} {gen : Nat → BingoBoard} {room1 : Room}
    (h : startGame room gen = some room1) :
    room.status = "waiting" ∧
      room1 = { room with
                  status := "playing"
                  calledNumbers := []
                  winners := []
                  players := assignBoards gen 0 room.players } := by
  unfold startGame at h
  split at h
  · exact ⟨by assumption, (Option.some.inj h).symm⟩
  · cases h

/-- startGame fails exactly when the room is not waiting. -/
theorem startGame_eq_none_iff (room : Room) (gen : Nat → BingoBoard) :
    startGame room gen = none ↔ room.status ≠ "waiting" := by
  unfold startGame
  split <;> simp_all

/-- The value produced by the rejection loop is fresh and comes from the
draw stream. -/
theorem drawFresh_some {draws called : List Nat} {n : Nat}
    (h : drawFresh draws called = some n) : n ∉ called ∧ n ∈ draws := by
  induction draws with
  | nil => cases h
  | cons d ds ih =>
    simp only [drawFresh] at h
    split at h
    · obtain ⟨h1, h2⟩ := ih h
      exact ⟨h1, List.mem_cons_of_mem _ h2⟩
    · rename_i hd
      injection h with h
      subst h
      exact ⟨hd, List.mem_cons_self _ _⟩

/-- If every value of the space has already been called, the rejection
loop rejects every draw of the space: it cannot terminate. -/
theorem drawFresh_none_of_exhausted {draws called space : List Nat}
    (hd : ∀ d ∈ draws, d ∈ space)
    (hex : ∀ k ∈ space, k ∈ called) :
    drawFresh draws called = none := by
  induction draws with
  | nil => rfl
  | cons d ds ih =>
    have hdc : d ∈ called := hex d (hd d (List.mem_cons_self _ _))
    simp only [drawFresh, if_pos hdc]
    exact ih (fun x hx => hd x (List.mem_cons_of_mem _ hx))

/-- The room returned by callNumber is either untouched or has exactly
one fresh number appended. -/
theorem callNumber_snd (room : Room) (cid : String) (draws : List Nat) :
    (callNumber room cid draws).2 = room ∨
      ∃ n, drawFresh draws room.calledNumbers = some n ∧
        (callNumber room cid draws).2 =
          { room with
              calledNumbers := room.calledNumbers ++ [n]
              currentNumber := some n } := by
  unfold callNumber
  split
  · cases hd : drawFresh draws room.calledNumbers with
    | none => left; simp [hd]
    | some n => right; exact ⟨n, rfl, by simp⟩
  · left; rfl

/-- The room returned by claimWin is either untouched or has exactly one
winner entry appended. -/
theorem claimWin_snd (room : Room) (pid pat : String) (now : Nat) :
    (claimWin room pid pat now).2 = room ∨
      ∃ p, room.players.find? (fun q => q.id == pid) = some p ∧
        (claimWin room pid pat now).2 =
          { room with winners := room.winners ++
              [{ playerId := pid, playerName := p.name,
                 pattern := pat, timestamp := now }] } := by
  unfold claimWin
  split
  · cases hf : room.players.find? (fun q => q.id == pid) with
    | none => left; simp [hf]
    | some p =>
      cases hv : verifyWin p room pat with
      | false => left; simp [hf, hv]
      | true => right; exact ⟨p, rfl, by simp [hv]⟩
  · left; rfl

/-! ## List helpers for the removal and board-assignment loops -/

theorem assignBoards_map_id (gen : Nat → BingoBoard) (i : Nat) (l : List Player) :
    (assignBoards gen i l).map Player.id = l.map Player.id := by
  induction l generalizing i with
  | nil => rfl
  | cons p ps ih => simp [assignBoards, ih]

theorem assignBoards_length (gen : Nat → BingoBoard) (i : Nat) (l : List Player) :
    (assignBoards gen i l).length = l.length := by
  induction l generalizing i with
  | nil => rfl
  | cons p ps ih => simp [assignBoards, ih]

theorem removeFirstPlayer_length_le (l : List Player) (pid : String) :
    (removeFirstPlayer l pid).length ≤ l.length := by
  induction l with
  | nil => simp [removeFirstPlayer]
  | cons p ps ih =>
    simp only [removeFirstPlayer]
    split
    · exact Nat.le_succ _
    · simpa using Nat.succ_le_succ ih

/-- Removing the first occurrence of `pid` keeps every id other than
`pid` present. -/
theorem mem_map_id_removeFirstPlayer {l : List Player} {x pid : String}
    (hx : x ∈ l.map Player.id) (hne : x ≠ pid) :
    x ∈ (removeFirstPlayer l pid).map Player.id := by
  induction l with
  | nil => simpa using hx
  | cons p ps ih =>
    simp only [List.map_cons, List.mem_cons] at hx
    simp only [removeFirstPlayer]
    split
    · rename_i hp
      rcases hx with hx | hx
      · exact absurd (hx.trans hp) hne
      · exact hx
    · rcases hx with hx | hx
      · simp [hx]
      · simpa using Or.inr (ih hx)

/-! ## The state invariant of every stored room -/

/-- Every room that can exist in the store satisfies the session
invariants: its status is 'waiting' or 'playing', it is never empty,
the host is a member, membership is capped at 10, and the called
numbers are duplicate-free. -/
theorem reachable_inv (r : Room) (h : Reachable r) :
    (r.status = "waiting" ∨ r.status = "playing") ∧
      r.players ≠ [] ∧
      r.hostId ∈ r.players.map Player.id ∧
      r.players.length ≤ 10 ∧
      r.calledNumbers.Nodup := by
  induction h with
  | created host gameType code now =>
    refine ⟨Or.inl rfl, by simp [mkRoom], by simp [mkRoom], ?_, by simp [mkRoom]⟩
    show (1 : Nat) ≤ 10
    omega
  | step r0 e r1 hr hstep ih =>
    obtain ⟨ist, ine, ihost, ilen, inodup⟩ := ih
    cases e with
    | join p =>
      cases hj : joinRoom r0 p with
      | none =>
        simp [roomStep, hj] at hstep
        subst hstep
        exact ⟨ist, ine, ihost, ilen, inodup⟩
      | some rj =>
        obtain ⟨hw, hlt, hrj⟩ := joinRoom_some hj
        simp [roomStep, hj] at hstep
        subst hstep
        subst hrj
        refine ⟨ist, by simp, ?_, ?_, inodup⟩
        · show r0.hostId ∈ (r0.players ++ [p]).map Player.id
          rw [List.map_append]
          exact List.mem_append_left _ ihost
        · show (r0.players ++ [p]).length ≤ 10
          simp only [List.length_append, List.length_cons, List.length_nil]
          omega
    | leave pid =>
      simp only [roomStep] at hstep
      cases hl : leaveRoom r0 pid with
      | none =>
        simp only [hl] at hstep
        injection hstep with h1
        subst h1
        exact ⟨ist, ine, ihost, ilen, inodup⟩
      | some rl =>
        simp only [hl] at hstep
        by_cases hlen0 : rl.players.length = 0
        · rw [if_pos hlen0] at hstep; cases hstep
        · rw [if_neg hlen0] at hstep
          injection hstep with h1
          subst h1
          unfold leaveRoom at hl
          cases hf : r0.players.find? (fun q => q.id == pid) with
          | none => simp only [hf] at hl; cases hl
          | some pf =>
            simp only [hf] at hl
            cases hrm : removeFirstPlayer r0.players pid with
            | nil =>
              simp only [hrm] at hl
              injection hl with h2
              subst h2
              simp at hlen0
            | cons q qs =>
              simp only [hrm] at hl
              by_cases hh : pid = r0.hostId
              · rw [if_pos hh] at hl
                injection hl with h2
                subst h2
                refine ⟨ist, by simp, by simp, ?_, inodup⟩
                show ({ q with isHost := true } :: qs).length ≤ 10
                have hle := removeFirstPlayer_length_le r0.players pid
                rw [hrm] at hle
                simp only [List.length_cons] at hle ⊢
                omega
              · rw [if_neg hh] at hl
                injection hl with h2
                subst h2
                refine ⟨ist, by simp, ?_, ?_, inodup⟩
                · show r0.hostId ∈ (q :: qs).map Player.id
                  rw [← hrm]
                  exact mem_map_id_removeFirstPlayer ihost
                    (fun hcontra => hh hcontra.symm)
                · show (q :: qs).length ≤ 10
                  have hle := removeFirstPlayer_length_le r0.players pid
                  rw [hrm] at hle
                  omega
    | start gen =>
      cases hs : startGame r0 gen with
      | none =>
        simp [roomStep, hs] at hstep
        subst hstep
        exact ⟨ist, ine, ihost, ilen, inodup⟩
      | some rs =>
        obtain ⟨hw, hrs⟩ := startGame_some hs
        simp [roomStep, hs] at hstep
        subst hstep
        subst hrs
        refine ⟨Or.inr rfl, ?_, ?_, ?_, by simp⟩
        · show assignBoards gen 0 r0.players ≠ []
          intro hnil
          have hlenz := assignBoards_length gen 0 r0.players
          rw [hnil] at hlenz
          exact ine (List.length_eq_zero.mp hlenz.symm)
        · show r0.hostId ∈ (assignBoards gen 0 r0.players).map Player.id
          rw [assignBoards_map_id]
          exact ihost
        · show (assignBoards gen 0 r0.players).length ≤ 10
          rw [assignBoards_length]
          exact ilen
    | call cid draws =>
      simp only [roomStep] at hstep
      injection hstep with h1
      rcases callNumber_snd r0 cid draws with hc | ⟨n, hdf, hc⟩
      · rw [hc] at h1
        subst h1
        exact ⟨ist, ine, ihost, ilen, inodup⟩
      · rw [hc] at h1
        subst h1
        refine ⟨ist, ine, ihost, ilen, ?_⟩
        show (r0.calledNumbers ++ [n]).Nodup
        have hn := (drawFresh_some hdf).1
        simp [List.nodup_append, inodup, hn]
    | claim pid pat now =>
      simp only [roomStep] at hstep
      injection hstep with h1
      rcases claimWin_snd r0 pid pat now with hc | ⟨p, hf, hc⟩ <;>
        · rw [hc] at h1
          subst h1
          exact ⟨ist, ine, ihost, ilen, inodup⟩
    | chat pid text =>
      simp only [roomStep] at hstep
      injection hstep with h1
      subst h1
      exact ⟨ist, ine, ihost, ilen, inodup⟩

/-! ## Store-level helpers for room destruction -/

theorem lookup_eraseKey (rooms : List (String × Room)) (code : String) :
    List.lookup code (eraseKey rooms code) = none := by
  induction rooms with
  | nil => rfl
  | cons kv rest ih =>
    obtain ⟨k, v⟩ := kv
    by_cases h : k = code
    · simpa [eraseKey, List.filter_cons, h] using ih
    · simp only [eraseKey, List.filter_cons] at ih ⊢
      rw [if_pos (by simpa using h)]
      have hbeq : (code == k) = false := beq_eq_false_iff_ne.mpr (Ne.symm h)
      simp [List.lookup, hbeq, ih]

theorem not_mem_filter_ne (l : List String) (c : String) :
    c ∉ l.filter (fun x => x != c) := by
  intro hmem
  have hp := List.of_mem_filter hmem
  simp at hp

/-! ## The claim theorems -/

/-- Claim C1, counterexample: in `gmC1` the host of room ROOM01 is "h",
yet the request of the non-host "p" starts the game successfully and
the room's status changes to 'playing' — there is no NotHost failure. -/
theorem startGame_nonhost_succeeds_cex :
    (findRoom gmC1 "ROOM01").map Room.hostId = some "h" ∧
      ("p" : String) ≠ "h" ∧
      (handleStartGame gmC1 "p" "ROOM01" genW).1 = true ∧
      (findRoom (handleStartGame gmC1 "p" "ROOM01" genW).2 "ROOM01").map
          Room.status = some "playing" :=
  ⟨by decide, by decide, by decide, by decide⟩

/-- Claim C1, amended: handleStartGame succeeds exactly when the room
exists with status 'waiting'; the requester id is ignored entirely (the
result is independent of it), and a failed start leaves the manager
unchanged. -/
theorem startGame_waiting_only (gm : GameManager) (rid rid2 code : String)
    (gen : Nat → BingoBoard) :
    ((handleStartGame gm rid code gen).1 = true ↔
       ∃ room, findRoom gm code = some room ∧ room.status = "waiting") ∧
      ((handleStartGame gm rid code gen).1 = false →
        (handleStartGame gm rid code gen).2 = gm) ∧
      handleStartGame gm rid code gen = handleStartGame gm rid2 code gen := by
  refine ⟨?_, ?_, rfl⟩
  · unfold handleStartGame startGameM
    cases hf : findRoom gm code with
    | none => simp
    | some room =>
      by_cases hw : room.status = "waiting"
      · cases hs : startGame room gen with
        | none =>
          rw [startGame_eq_none_iff] at hs
          exact absurd hw hs
        | some r1 => simp [hs, hw]
      · have hs : startGame room gen = none :=
          (startGame_eq_none_iff room gen).mpr hw
        simp [hs, hw]
  · unfold handleStartGame startGameM
    cases hf : findRoom gm code with
    | none => intro _; rfl
    | some room =>
      cases hs : startGame room gen with
      | none => intro _; simp [hs]
      | some r1 => intro hfalse; simp [hs] at hfalse

theorem startGame_waiting_only_wit :
    (handleStartGame gmC1 "p" "NOPE" genW).2 = gmC1 :=
  (startGame_waiting_only gmC1 "p" "q" "NOPE" genW).2.1 (by decide)

/-- Claim C2, divergence witness (code bug): in a playing room whose
variant number space is completely called, the host's callNumber never
terminates: every finite draw stream whose draws lie in the space (as
Math.random guarantees) is rejected in full, so for all such streams
the operation produces no number and no state change — the code loops
forever instead of failing with NumbersExhausted. -/
theorem callNumber_exhausted_loops (room : Room) (draws : List Nat)
    (hstat : room.status = "playing")
    (hd : ∀ d ∈ draws, d ∈ List.range' 1 (spaceSize room.gameType))
    (hex : ∀ k ∈ List.range' 1 (spaceSize room.gameType),
      k ∈ room.calledNumbers) :
    callNumber room room.hostId draws = (none, room) := by
  unfold callNumber
  rw [if_pos ⟨hstat, rfl⟩]
  rw [drawFresh_none_of_exhausted hd hex]

theorem callNumber_exhausted_loops_wit :
    callNumber roomEx roomEx.hostId [5] = (none, roomEx) :=
  callNumber_exhausted_loops roomEx [5] rfl (by decide) (by decide)

/-- Claim C3: in every reachable room with members the host is a member,
and whenever the current host leaves with members remaining the new
host is the first element of the member list after the removal. -/
theorem host_membership_and_transfer :
    (∀ r : Room, Reachable r → r.players ≠ [] →
       r.hostId ∈ r.players.map Player.id) ∧
    (∀ (room room1 : Room) (pid : String),
       leaveRoom room pid = some room1 → pid = room.hostId →
       ∀ q qs, room1.players = q :: qs → room1.hostId = q.id) := by
  constructor
  · intro r hr _
    exact (reachable_inv r hr).2.2.1
  · intro room room1 pid h hpid q qs hq
    unfold leaveRoom at h
    cases hf : room.players.find? (fun p => p.id == pid) with
    | none => simp only [hf] at h; cases h
    | some pf =>
      simp only [hf] at h
      cases hrm : removeFirstPlayer room.players pid with
      | nil =>
        simp only [hrm] at h
        injection h with h2
        subst h2
        simp at hq
      | cons q0 qs0 =>
        simp only [hrm] at h
        rw [if_pos hpid] at h
        injection h with h2
        subst h2
        simp only [List.cons.injEq] at hq
        rw [← hq.1]

theorem host_membership_and_transfer_wit :
    roomW0.hostId ∈ roomW0.players.map Player.id :=
  host_membership_and_transfer.1 roomW0
    (Reachable.created hostW "75ball" "ROOM01" 0) (by decide)

/-- Claim C4, counterexample: the same participant can join twice (join
checks only status and capacity, not id uniqueness), so a reachable
room holds the duplicate member list ["h", "p", "p"]. -/
theorem members_dup_cex :
    Reachable roomW2 ∧ roomW2.players.map Player.id = ["h", "p", "p"] ∧
      ¬(roomW2.players.map Player.id).Nodup := by
  refine ⟨?_, by decide, by decide⟩
  have h0 : Reachable roomW0 := Reachable.created hostW "75ball" "ROOM01" 0
  have h1 : Reachable roomW1 :=
    Reachable.step roomW0 (.join dupW) roomW1 h0 (by decide)
  exact Reachable.step roomW1 (.join dupW) roomW2 h1 (by decide)

/-- Claim C4, amended: across every sequence of operations the member
list never exceeds the configured maximum of 10. -/
theorem members_bounded (r : Room) (hr : Reachable r) :
    r.players.length ≤ 10 :=
  (reachable_inv r hr).2.2.2.1

theorem members_bounded_wit : roomW0.players.length ≤ 10 :=
  members_bounded roomW0 (Reachable.created hostW "75ball" "ROOM01" 0)

/-- Claim C5: a leave that removes the last member deletes the room from
the store in the same step and releases its code, so a following
createRoom draw of that very code is accepted. -/
theorem leave_last_destroys_room (gm : GameManager) (code : String)
    (room : Room) (p : Player)
    (hfind : findRoom gm code = some room)
    (hpl : room.players = [p]) :
    findRoom (leaveRoomM gm code p.id) code = none ∧
      code ∉ (leaveRoomM gm code p.id).roomCodes ∧
      generateRoomCode [code] (leaveRoomM gm code p.id).roomCodes =
        some code := by
  have hleave : leaveRoom room p.id = some { room with players := [] } := by
    unfold leaveRoom
    rw [hpl]
    simp [removeFirstPlayer]
  have hM : leaveRoomM gm code p.id =
      { rooms := eraseKey gm.rooms code
        roomCodes := gm.roomCodes.filter (fun c => c != code) } := by
    unfold leaveRoomM
    simp only [hfind, hleave]
    rfl
  rw [hM]
  refine ⟨?_, not_mem_filter_ne gm.roomCodes code, ?_⟩
  · show List.lookup code (eraseKey gm.rooms code) = none
    exact lookup_eraseKey gm.rooms code
  · simp only [generateRoomCode]
    rw [if_neg (not_mem_filter_ne gm.roomCodes code)]

theorem leave_last_destroys_room_wit :
    findRoom (leaveRoomM gmSolo "AAAAAA" "h") "AAAAAA" = none ∧
      "AAAAAA" ∉ (leaveRoomM gmSolo "AAAAAA" "h").roomCodes ∧
      generateRoomCode ["AAAAAA"] (leaveRoomM gmSolo "AAAAAA" "h").roomCodes =
        some "AAAAAA" :=
  leave_last_destroys_room gmSolo "AAAAAA" soloRoom
    { hostW with isHost := true } (by decide) rfl

/-- Claim C6: a successful callNumber appends exactly one number not yet
called, drawn from the variant's number space, which becomes
currentNumber; and the calledNumbers of every reachable room stay
duplicate-free. -/
theorem callNumber_fresh_and_nodup :
    (∀ (room : Room) (callerId : String) (draws : List Nat) (n : Nat)
        (room1 : Room),
       (∀ d ∈ draws, d ∈ List.range' 1 (spaceSize room.gameType)) →
       callNumber room callerId draws = (some n, room1) →
       n ∉ room.calledNumbers ∧
         n ∈ List.range' 1 (spaceSize room.gameType) ∧
         room1.calledNumbers = room.calledNumbers ++ [n] ∧
         room1.currentNumber = some n) ∧
    (∀ r : Room, Reachable r → r.calledNumbers.Nodup) := by
  constructor
  · intro room callerId draws n room1 hd hcall
    unfold callNumber at hcall
    split at hcall
    · cases hdf : drawFresh draws room.calledNumbers with
      | none => simp only [hdf] at hcall; simp at hcall
      | some m =>
        simp only [hdf] at hcall
        obtain ⟨hm, hmem⟩ := drawFresh_some hdf
        injection hcall with h1 h2
        injection h1 with h1
        subst h1
        subst h2
        exact ⟨hm, hd _ hmem, rfl, rfl⟩
    · simp at hcall
  · intro r hr
    exact (reachable_inv r hr).2.2.2.2

theorem callNumber_fresh_and_nodup_wit :
    (7 : Nat) ∉ roomCall.calledNumbers ∧
      (7 : Nat) ∈ List.range' 1 (spaceSize roomCall.gameType) ∧
      roomCall7.calledNumbers = roomCall.calledNumbers ++ [7] ∧
      roomCall7.currentNumber = some 7 :=
  callNumber_fresh_and_nodup.1 roomCall "h" [3, 7] 7 roomCall7
    (by decide) (by decide)

/-- Claim C7: a failing claimWin returns the room unchanged (winners,
calledNumbers, status and members included); a successful claimWin
appends exactly one winner entry carrying that participant id and
pattern, and changes nothing else. -/
theorem claimWin_state_change (room : Room) (pid pat : String) (now : Nat) :
    ((claimWin room pid pat now).1 = false →
       (claimWin room pid pat now).2 = room) ∧
    ((claimWin room pid pat now).1 = true →
       ∃ p, room.players.find? (fun q => q.id == pid) = some p ∧
         (claimWin room pid pat now).2 =
           { room with winners := room.winners ++
               [{ playerId := pid, playerName := p.name,
                  pattern := pat, timestamp := now }] }) := by
  unfold claimWin
  split
  · cases hf : room.players.find? (fun q => q.id == pid) with
    | none => simp
    | some p =>
      cases hv : verifyWin p room pat with
      | false => simp [hv]
      | true => exact ⟨by simp [hv], fun _ => ⟨p, rfl, by simp [hv]⟩⟩
  · simp

theorem claimWin_state_change_wit :
    (claimWin roomW0 "x" "full-house" 0).2 = roomW0 :=
  (claimWin_state_change roomW0 "x" "full-house" 0).1 (by decide)

/-- Claim C8 helper: every member whose socket is open receives a send
attempt, whose outcome depends only on that member's own transport. -/
theorem mem_broadcastToRoom {ps : List Player} {p : Player}
    (hp : p ∈ ps) (hopen : p.socket.isClosed = false) :
    (p.id, if p.socket.sendFails then DeliveryOutcome.failedCaught
           else DeliveryOutcome.delivered) ∈ broadcastToRoom ps := by
  induction hp with
  | head as =>
    simp only [broadcastToRoom, hopen]
    cases hsf : p.socket.sendFails <;> simp [hsf]
  | tail b hmem ih =>
    simp only [broadcastToRoom]
    split
    · exact List.mem_cons_of_mem _ ih
    · split
      · exact List.mem_cons_of_mem _ ih
      · exact List.mem_cons_of_mem _ ih

/-- Claim C8 helper: one outcome is recorded per member — no member is
dropped by an earlier failure. -/
theorem broadcastToRoom_length (ps : List Player) :
    (broadcastToRoom ps).length = ps.length := by
  induction ps with
  | nil => rfl
  | cons q qs ih =>
    simp only [broadcastToRoom]
    split
    · simpa using ih
    · split <;> simpa using ih

/-- Claim C8: a broadcast iterates over all members independently; an
open-socket member's message is attempted (and its outcome is a
function of that member's own transport alone, a throwing send being
caught), and the outcome list covers every member, so one member's
failure never prevents delivery to the rest.  The broadcast returns
outcomes only — the room state that produced the message is not
touched, hence not rolled back. -/
theorem broadcast_per_recipient (room : Room) (p : Player)
    (hp : p ∈ room.players) (hopen : p.socket.isClosed = false) :
    (p.id, if p.socket.sendFails then DeliveryOutcome.failedCaught
           else DeliveryOutcome.delivered) ∈ broadcastToRoom room.players ∧
      (broadcastToRoom room.players).length = room.players.length :=
  ⟨mem_broadcastToRoom hp hopen, broadcastToRoom_length room.players⟩

theorem broadcast_per_recipient_wit :
    (dupW.id, if dupW.socket.sendFails then DeliveryOutcome.failedCaught
              else DeliveryOutcome.delivered) ∈ broadcastToRoom roomB.players ∧
      (broadcastToRoom roomB.players).length = roomB.players.length :=
  broadcast_per_recipient roomB dupW (by decide) rfl

/-- Claim C9: verifyWin is a pure function of the claimant's board, the
room's calledNumbers and gameType, and the claimed pattern: two
evaluations agreeing on those inputs yield the same verdict, whatever
else differs. -/
theorem verifyWin_deterministic (p1 p2 : Player) (r1 r2 : Room)
    (pat : String)
    (hb : p1.board = p2.board) (hc : r1.calledNumbers = r2.calledNumbers)
    (hg : r1.gameType = r2.gameType) :
    verifyWin p1 r1 pat = verifyWin p2 r2 pat := by
  have hmc : calculateMarkedCount p1 r1 = calculateMarkedCount p2 r2 := by
    unfold calculateMarkedCount
    rw [hb, hc, hg]
  unfold verifyWin
  rw [hmc, hg]

theorem verifyWin_deterministic_wit :
    verifyWin pDetA rDetA "full-house" = verifyWin pDetB rDetB "full-house" :=
  verifyWin_deterministic pDetA pDetB rDetA rDetB "full-house" rfl rfl rfl

/-- Claim C10: no session operation ever produces status 'finished':
every reachable room is 'waiting' or 'playing'. -/
theorem status_never_finished (r : Room) (hr : Reachable r) :
    r.status = "waiting" ∨ r.status = "playing" :=
  (reachable_inv r hr).1

theorem status_never_finished_wit :
    roomW0.status = "waiting" ∨ roomW0.status = "playing" :=
  status_never_finished roomW0 (Reachable.created hostW "75ball" "ROOM01" 0)

end Bingo
